import Mathlib

/-!
Shallow embedding of the outgoing-webhook module
(webhook_outgoing: helpers.py and models/ir_action_server.py).

Python strings are modelled as List Char.  Machine-level details that the
claims do not touch (UTF-8 byte encoding, float JSON numbers, unicode
escapes in repr) are noted at the definition concerned.
-/

namespace Webhook

/-- Shorthand turning a Lean string literal into the List Char model of a
Python string. -/
def sl (s : String) : List Char := s.data

/-- JSON values as produced by json.loads.  Numbers are modelled as Int
(float literals are outside every claim); object member order is the
document order after last-wins deduplication, as in Python dicts. -/
inductive Json where
  | null : Json
  | bool : Bool → Json
  | num : Int → Json
  | str : List Char → Json
  | arr : List Json → Json
  | obj : List (List Char × Json) → Json

/-- Python truthiness of a JSON value. -/
def jsonTruthy : Json → Bool
  | Json.null => false
  | Json.bool b => b
  | Json.num n => n != 0
  | Json.str s => !s.isEmpty
  | Json.arr xs => !xs.isEmpty
  | Json.obj kvs => !kvs.isEmpty

/-- Python equality test of a value against an int literal, as in the
source comparison status_code != 200.  A Python int equals only a
numerically equal number; every non-number compares unequal.  (Python
also equates True with 1 and equal floats; neither case is reachable in
any claim and both are noted rather than modelled.) -/
def jsonEqInt (j : Json) (n : Int) : Bool :=
  match j with
  | Json.num m => m == n
  | _ => false

end Webhook

namespace Webhook

/-! ## helpers.py -/

/-- ESCAPE_CHARS from helpers.py. -/
def ESCAPE_CHARS : List Char := ['\"', '\n', '\r', '\t', '\x08', '\x0c']

/-- REPLACE_CHARS from helpers.py: the two-character escape sequences. -/
def REPLACE_CHARS : List (List Char) :=
  [['\\', '\"'], ['\\', 'n'], ['\\', 'r'], ['\\', 't'], ['\\', 'b'], ['\\', 'f']]

/-- Python str.replace for a single-character needle (every needle in
ESCAPE_CHARS is a single character, so this is exactly the replace the
source performs). -/
def pyReplace1 (old : Char) (new : List Char) : List Char → List Char
  | [] => []
  | c :: cs => (if c = old then new else [c]) ++ pyReplace1 old new cs

/-- Python str.isspace characters relevant to str.strip. -/
def pyIsSpace (c : Char) : Bool :=
  c = ' ' || c = '\t' || c = '\n' || c = '\r' || c = '\x0b' || c = '\x0c'

/-- Python str.strip(): drop leading and trailing whitespace. -/
def pyStrip (s : List Char) : List Char :=
  ((s.dropWhile pyIsSpace).reverse.dropWhile pyIsSpace).reverse

/-- Python values a record field can hold, as far as the helper is
concerned. -/
inductive PyVal where
  | str : List Char → PyVal
  | bool : Bool → PyVal
  | int : Int → PyVal
  | none : PyVal
deriving DecidableEq

/-- Python truthiness of a field value. -/
def pyTruthy : PyVal → Bool
  | PyVal.str s => !s.isEmpty
  | PyVal.bool b => b
  | PyVal.int n => n != 0
  | PyVal.none => false

/-- isinstance(v, str). -/
def pyIsStr : PyVal → Bool
  | PyVal.str _ => true
  | _ => false

/-- The character data of a string value (only used under pyIsStr). -/
def pyStrData : PyVal → List Char
  | PyVal.str s => s
  | _ => []

/-- The sequential replacement loop of get_escaped_value: fold the zipped
(ESCAPE_CHARS, REPLACE_CHARS) pairs over the value. -/
def seqReplaceAll (s : List Char) : List Char :=
  (List.zip ESCAPE_CHARS REPLACE_CHARS).foldl
    (fun acc p => pyReplace1 p.1 p.2 acc) s

/-- get_escaped_value from helpers.py.  A record is modelled as a partial
map from attribute name to value; getattr with default False becomes
Option.getD with PyVal.bool false. -/
def get_escaped_value (record : String → Option PyVal) (field : String) : PyVal :=
  let field_value := (record field).getD (PyVal.bool false)
  if pyTruthy field_value && pyIsStr field_value then
    PyVal.str (seqReplaceAll (pyStrip (pyStrData field_value)))
  else
    field_value

/-- Single-pass, per-character escaping: each of the six characters is
mapped to its two-character sequence independently; every other
character, the backslash included, is left alone. -/
def escChar1 (c : Char) : List Char :=
  if c = '\"' then ['\\', '\"']
  else if c = '\n' then ['\\', 'n']
  else if c = '\r' then ['\\', 'r']
  else if c = '\t' then ['\\', 't']
  else if c = '\x08' then ['\\', 'b']
  else if c = '\x0c' then ['\\', 'f']
  else [c]

/-- Single pass over the string. -/
def escapeOnePass (s : List Char) : List Char := s.flatMap escChar1

end Webhook


namespace Webhook

/-! ## json.loads, modelled

A small executable JSON reader standing for the stdlib json.loads calls
in ir_action_server.py.  Unmodelled corners, none reachable from a
claim: float and exponent literals, the backslash-u escape, and unicode
key details.  Object members keep document order with last-wins
duplicate keys, as Python dicts do. -/

/-- Opening brace, written by code point to keep brace characters out of
literals. -/
def lbChar : Char := Char.ofNat 123

/-- Closing brace. -/
def rbChar : Char := Char.ofNat 125

/-- JSON insignificant whitespace. -/
def jsonWS (c : Char) : Bool := c = ' ' || c = '\t' || c = '\n' || c = '\r'

/-- Drop insignificant whitespace. -/
def skipWS (l : List Char) : List Char := l.dropWhile jsonWS

/-- Insert a member into an object the way a Python dict does: an
existing key keeps its position and takes the new value, a new key is
appended. -/
def dictInsert (kvs : List (List Char × Json)) (k : List Char) (v : Json) :
    List (List Char × Json) :=
  if kvs.any (fun p => p.1 == k) then
    kvs.map (fun p => if p.1 == k then (k, v) else p)
  else kvs ++ [(k, v)]

/-- dict.get on an object value. -/
def dictGet (kvs : List (List Char × Json)) (k : List Char) : Option Json :=
  match kvs.find? (fun p => p.1 == k) with
  | some p => some p.2
  | Option.none => Option.none

/-- Body of a JSON string, after the opening quote: returns the decoded
characters and the input following the closing quote. -/
def parseJsonStringBody : List Char → Option (List Char × List Char)
  | [] => Option.none
  | c :: rest =>
    if c = '\"' then some ([], rest)
    else if c = '\\' then
      match rest with
      | [] => Option.none
      | e :: rest2 =>
        let dec : Option Char :=
          if e = '\"' then some '\"'
          else if e = '\\' then some '\\'
          else if e = '/' then some '/'
          else if e = 'n' then some '\n'
          else if e = 'r' then some '\r'
          else if e = 't' then some '\t'
          else if e = 'b' then some '\x08'
          else if e = 'f' then some '\x0c'
          else Option.none
        match dec with
        | some d => (parseJsonStringBody rest2).map (fun p => (d :: p.1, p.2))
        | Option.none => Option.none
    else (parseJsonStringBody rest).map (fun p => (c :: p.1, p.2))

/-- Value of a nonempty digit run. -/
def digitsVal (ds : List Char) : Nat :=
  ds.foldl (fun a c => a * 10 + (c.toNat - 48)) 0

/-- Leading digit run of the input, with the rest. -/
def parseDigits (l : List Char) : Option (Nat × List Char) :=
  let ds := l.takeWhile Char.isDigit
  if ds.isEmpty then Option.none
  else some (digitsVal ds, l.drop ds.length)

mutual

/-- One JSON value, by fuel; returns the value and the remaining
input. -/
def parseJsonValue : Nat → List Char → Option (Json × List Char)
  | 0, _ => Option.none
  | fuel + 1, l =>
    match skipWS l with
    | [] => Option.none
    | c :: rest =>
      if c = '\"' then
        (parseJsonStringBody rest).map (fun p => (Json.str p.1, p.2))
      else if c = lbChar then parseJsonMembers fuel rest []
      else if c = '[' then parseJsonElems fuel rest []
      else if c = 't' then
        match rest with
        | 'r' :: 'u' :: 'e' :: r => some (Json.bool true, r)
        | _ => Option.none
      else if c = 'f' then
        match rest with
        | 'a' :: 'l' :: 's' :: 'e' :: r => some (Json.bool false, r)
        | _ => Option.none
      else if c = 'n' then
        match rest with
        | 'u' :: 'l' :: 'l' :: r => some (Json.null, r)
        | _ => Option.none
      else if c = '-' then
        (parseDigits rest).map (fun p => (Json.num (-(p.1 : Int)), p.2))
      else if c.isDigit then
        (parseDigits (c :: rest)).map (fun p => (Json.num (p.1 : Int), p.2))
      else Option.none

/-- Object members, entered right after the opening brace; acc holds the
members read so far. -/
def parseJsonMembers : Nat → List Char → List (List Char × Json) →
    Option (Json × List Char)
  | 0, _, _ => Option.none
  | fuel + 1, l, acc =>
    match skipWS l with
    | [] => Option.none
    | c :: rest =>
      if c = rbChar then some (Json.obj acc, rest)
      else if acc.isEmpty then
        match parseJsonMember fuel (c :: rest) with
        | some (kv, r) => parseJsonMembers fuel r (dictInsert acc kv.1 kv.2)
        | Option.none => Option.none
      else if c = ',' then
        match parseJsonMember fuel rest with
        | some (kv, r) => parseJsonMembers fuel r (dictInsert acc kv.1 kv.2)
        | Option.none => Option.none
      else Option.none

/-- One key-colon-value member. -/
def parseJsonMember : Nat → List Char →
    Option ((List Char × Json) × List Char)
  | 0, _ => Option.none
  | fuel + 1, l =>
    match skipWS l with
    | '\"' :: r0 =>
      match parseJsonStringBody r0 with
      | some (k, r1) =>
        match skipWS r1 with
        | ':' :: r2 =>
          match parseJsonValue fuel r2 with
          | some (v, r3) => some ((k, v), r3)
          | Option.none => Option.none
        | _ => Option.none
      | Option.none => Option.none
    | _ => Option.none

/-- Array elements, entered right after the opening bracket. -/
def parseJsonElems : Nat → List Char → List Json → Option (Json × List Char)
  | 0, _, _ => Option.none
  | fuel + 1, l, acc =>
    match skipWS l with
    | [] => Option.none
    | c :: rest =>
      if c = ']' then some (Json.arr acc, rest)
      else if acc.isEmpty then
        match parseJsonValue fuel (c :: rest) with
        | some (v, r) => parseJsonElems fuel r (acc ++ [v])
        | Option.none => Option.none
      else if c = ',' then
        match parseJsonValue fuel rest with
        | some (v, r) => parseJsonElems fuel r (acc ++ [v])
        | Option.none => Option.none
      else Option.none

end

/-- json.loads: parse the whole input, allowing trailing whitespace
only; Option.none stands for the json.JSONDecodeError raise. -/
def jsonLoads (l : List Char) : Option Json :=
  match parseJsonValue (2 * l.length + 4) l with
  | some (j, rest) => if (skipWS rest).isEmpty then some j else Option.none
  | Option.none => Option.none

end Webhook

namespace Webhook

/-! ## ir_action_server.py: data model and execution pipeline -/

/-- Exceptions that can arise during one webhook attempt.  The first
four are the requests library classes matched by the except ladder of
the source; the rest reach its final catch-all arm. -/
inductive PyExc where
  | httpError
  | connectionError
  | timeout
  | requestException
  | jsonDecodeError
  | templateError
  | attributeError
  | other
deriving DecidableEq

/-- An HTTP response.  The text and content attributes of a requests
Response differ only by str versus bytes; both are modelled by the one
body field. -/
structure Response where
  status_code : Int
  body : List Char
deriving DecidableEq

/-- The server-action record fields the webhook pipeline reads.  The
type field comes from the base action model; for a server action it
holds the action-type identifier ir.actions.server, while request_type
is the selection field of this module. -/
structure Config where
  name : List Char
  endpoint : List Char
  headers : List Char
  body_template : List Char
  request_method : List Char
  request_type : List Char
  log_webhook_calls : Bool
  delay_execution : Bool
  delay : Int
  type : List Char
deriving DecidableEq

/-- A request payload: bytes from str.encode for the generic builders,
str from json.dumps for the graphql builder.  The byte level is
collapsed to the character sequence. -/
inductive Payload where
  | bytes : List Char → Payload
  | str : List Char → Payload
deriving DecidableEq

/-- One row of the webhook.logging model, as built by _webhook_logging.
The webhook label collapses the python expression name (recordset) to
the action name; no claim reads the label. -/
structure LogEntry where
  webhook_type : List Char
  webhook : List Char
  endpoint : List Char
  headers : List Char
  body : List Char
  response : List Char
  status : Option Int
deriving DecidableEq

/-- _get_body_status_code: the inner scan over the data member — for
each top-level value under data that is itself an object, every member
literally named statusCode overwrites the running status, so the last
one found wins. -/
def scanStatus (init : Json) (kvs : List (List Char × Json)) : Json :=
  kvs.foldl
    (fun acc p =>
      match p.2 with
      | Json.obj inner =>
          inner.foldl (fun a q => if q.1 = sl "statusCode" then q.2 else a) acc
      | _ => acc)
    init

/-- _get_body_status_code from ir_action_server.py.  The branch tests
the type field of the action (source line: if self.type equals graphql),
not request_type.  An empty body short-circuits the condition chain; a
nonempty body is fed to json.loads, whose failure raises; a truthy
non-object parse raises AttributeError at the .get call; otherwise the
data member, when a truthy object, is scanned for nested statusCode
members. -/
def get_body_status_code (cfg : Config) (r : Response) : Except PyExc Json :=
  let status_code := Json.num r.status_code
  if cfg.type = sl "graphql" then
    if r.body.isEmpty then Except.ok status_code
    else
      match jsonLoads r.body with
      | Option.none => Except.error PyExc.jsonDecodeError
      | some j =>
        if !(jsonTruthy j) then Except.ok status_code
        else
          match j with
          | Json.obj kvs =>
            match dictGet kvs (sl "data") with
            | Option.none => Except.ok status_code
            | some d =>
              if !(jsonTruthy d) then Except.ok status_code
              else
                match d with
                | Json.obj inner => Except.ok (scanStatus status_code inner)
                | _ => Except.ok status_code
          | _ => Except.error PyExc.attributeError
  else Except.ok status_code

/-- raise_for_status of the requests library: an error status is any
code in the 4xx or 5xx range. -/
def raise_for_status (r : Response) : Except PyExc Unit :=
  if 400 ≤ r.status_code ∧ r.status_code < 600 then Except.error PyExc.httpError
  else Except.ok ()

/-- The value whose content attribute _webhook_logging reads: either the
response (success path) or, on the failure path, the exception object
that _handle_exception passes in its place. -/
inductive RespOrExc where
  | resp : Response → RespOrExc
  | exc : PyExc → RespOrExc

/-- Reading .content: a response yields its body; an exception object
has no content attribute, so the read raises AttributeError. -/
def pyContent : RespOrExc → Except PyExc (List Char)
  | RespOrExc.resp r => Except.ok r.body
  | RespOrExc.exc _ => Except.error PyExc.attributeError

/-- getattr(x, status_code attribute, None): a response yields its
status code; an exception object lacks the attribute, giving None. -/
def pyStatusAttr : RespOrExc → Option Int
  | RespOrExc.resp r => some r.status_code
  | RespOrExc.exc _ => Option.none

/-- ustr of the body argument: None prints as None, payloads decode back
to their text. -/
def ustrPayload : Option Payload → List Char
  | Option.none => sl "None"
  | some (Payload.bytes s) => s
  | some (Payload.str s) => s

/-- _webhook_logging from ir_action_server.py: gated on the
log_webhook_calls flag; builds the row and creates it.  The row fields
are evaluated in source order, so the .content read happens before the
row exists — an error there means no row is created. -/
def webhook_logging (cfg : Config) (body : Option Payload) (x : RespOrExc) :
    Except PyExc (List LogEntry) :=
  if cfg.log_webhook_calls then
    match pyContent x with
    | Except.error e => Except.error e
    | Except.ok content =>
        Except.ok [{ webhook_type := sl "outgoing"
                   , webhook := cfg.name
                   , endpoint := cfg.endpoint
                   , headers := cfg.headers
                   , body := ustrPayload body
                   , response := content
                   , status := pyStatusAttr x }]
  else Except.ok []

/-- The diagnostic line chosen by the except ladder of
_handle_exception.  HTTPError is matched before the broader
RequestException arms; everything outside the requests hierarchy reaches
the final catch-all. -/
def classify_exception : PyExc → List Char
  | PyExc.httpError => sl "HTTPError during request"
  | PyExc.connectionError => sl "Error Connecting during request"
  | PyExc.timeout => sl "Connection Timeout"
  | PyExc.requestException => sl "Something wrong happened during request"
  | _ => sl "Internal exception happened during sending webhook request"

/-- _handle_exception from ir_action_server.py: re-raises the exception
into the except ladder (diagnostic only), then in the finally clause
calls _webhook_logging with the exception object in the response
position.  The response argument is received but never reaches the log.
An error raised inside the finally clause propagates to the caller. -/
def handle_exception (cfg : Config) (response : Option Response) (e : PyExc)
    (body : Option Payload) : List Char × Except PyExc (List LogEntry) :=
  (classify_exception e, webhook_logging cfg body (RespOrExc.exc e))

/-- Outcome of one _execute_webhook run: whether the success branch was
reached, the log rows created, the diagnostic category recorded on the
failure path, and any exception that escaped to the caller. -/
structure AttemptResult where
  success : Bool
  logs : List LogEntry
  diag : Option (List Char)
  escaped : Option PyExc
deriving DecidableEq

/-- Failure path of _execute_webhook: delegate to _handle_exception; a
created row list comes back on success of the logging step, and an
error from that step escapes. -/
def failedOutcome (cfg : Config) (response : Option Response) (e : PyExc)
    (body : Option Payload) : AttemptResult :=
  let h := handle_exception cfg response e body
  match h.2 with
  | Except.ok ls =>
      { success := false, logs := ls, diag := some h.1, escaped := Option.none }
  | Except.error e2 =>
      { success := false, logs := [], diag := some h.1, escaped := some e2 }

/-- _execute_webhook from ir_action_server.py, parameterised by the
outcome of the dispatched request call (the getattr-selected
_execute_webhook_<method>_request invocation): every exception from
building or sending arrives as the error of that value, a returned
response and payload continue through raise_for_status, the body status
classifier, the comparison against 200, and the success-path logging. -/
def execute_webhook (cfg : Config)
    (call : Except PyExc (Response × Payload)) : AttemptResult :=
  match call with
  | Except.error e => failedOutcome cfg Option.none e Option.none
  | Except.ok (r, payload) =>
    match raise_for_status r with
    | Except.error e => failedOutcome cfg (some r) e (some payload)
    | Except.ok _ =>
      match get_body_status_code cfg r with
      | Except.error e => failedOutcome cfg (some r) e (some payload)
      | Except.ok sc =>
        if !(jsonEqInt sc 200) then
          failedOutcome cfg (some r) PyExc.httpError (some payload)
        else
          match webhook_logging cfg (some payload) (RespOrExc.resp r) with
          | Except.ok ls =>
              { success := true, logs := ls, diag := Option.none,
                escaped := Option.none }
          | Except.error e =>
              { success := true, logs := [], diag := Option.none,
                escaped := some e }

/-- Outcome of _run_action_custom_webhook_multi over a record batch:
which records had their webhook executed, the rows created, the records
handed to the delayed-execution scheduler, and any exception that
escaped and aborted the loop. -/
structure MultiResult where
  executed : List Nat
  logs : List LogEntry
  scheduled : List Nat
  escaped : Option PyExc
deriving DecidableEq

/-- _run_action_custom_webhook_multi from ir_action_server.py: iterate
the records one by one; with delay_execution each record is handed to
the scheduler, otherwise _execute_webhook runs inline and an exception
escaping it aborts the remaining records. -/
def run_action_custom_webhook_multi (cfg : Config)
    (call : Nat → Except PyExc (Response × Payload)) :
    List Nat → MultiResult
  | [] => { executed := [], logs := [], scheduled := [], escaped := Option.none }
  | r0 :: rest =>
    if cfg.delay_execution then
      let m := run_action_custom_webhook_multi cfg call rest
      { m with scheduled := r0 :: m.scheduled }
    else
      let a := execute_webhook cfg (call r0)
      match a.escaped with
      | some e =>
          { executed := [r0], logs := a.logs, scheduled := [], escaped := some e }
      | Option.none =>
          let m := run_action_custom_webhook_multi cfg call rest
          { executed := r0 :: m.executed, logs := a.logs ++ m.logs,
            scheduled := m.scheduled, escaped := m.escaped }

end Webhook

namespace Webhook

/-! ## Request builders (_prepare_data_for_*) -/

/-- json.dumps escaping of one character inside a string (quote,
backslash and the named control escapes; other control characters would
print as backslash-u sequences, which no claim reaches). -/
def jsonEscChar (c : Char) : List Char :=
  if c = '\"' then ['\\', '\"']
  else if c = '\\' then ['\\', '\\']
  else if c = '\n' then ['\\', 'n']
  else if c = '\r' then ['\\', 'r']
  else if c = '\t' then ['\\', 't']
  else if c = '\x08' then ['\\', 'b']
  else if c = '\x0c' then ['\\', 'f']
  else [c]

/-- json.dumps of a string value. -/
def jsonDumpsStr (s : List Char) : List Char :=
  '\"' :: s.flatMap jsonEscChar ++ ['\"']

/-- json.dumps of the graphql wrapper object with the rendered query and
an empty variables object, member order and separators as the stdlib
prints them. -/
def graphqlPayload (query : List Char) : List Char :=
  [lbChar] ++ sl "\"query\": " ++ jsonDumpsStr query
    ++ sl ", \"variables\": " ++ [lbChar, rbChar, rbChar]

/-- _prepare_data_for_post_request (also _prepare_data_for_get, whose
body is identical): render the template and encode the text as UTF-8
bytes.  The jinja render of the template against the evaluation context
is an external collaborator, passed in as the render argument. -/
def prepare_data_for_post_request (cfg : Config)
    (render : List Char → Except PyExc (List Char)) : Except PyExc Payload :=
  match render cfg.body_template with
  | Except.ok s => Except.ok (Payload.bytes s)
  | Except.error e => Except.error e

/-- _prepare_data_for_get from ir_action_server.py: same construction as
the generic POST body. -/
def prepare_data_for_get (cfg : Config)
    (render : List Char → Except PyExc (List Char)) : Except PyExc Payload :=
  match render cfg.body_template with
  | Except.ok s => Except.ok (Payload.bytes s)
  | Except.error e => Except.error e

/-- _prepare_data_for_post_graphql: render with the context extended by
the escape helper (get_escaped_value), wrap as the graphql object, and
keep the json.dumps str (not bytes). -/
def prepare_data_for_post_graphql (cfg : Config)
    (renderEsc : List Char → Except PyExc (List Char)) : Except PyExc Payload :=
  match renderEsc cfg.body_template with
  | Except.ok q => Except.ok (Payload.str (graphqlPayload q))
  | Except.error e => Except.error e

/-- hasattr(self, prepare_method): the class defines
_prepare_data_for_post_request and _prepare_data_for_post_graphql and no
other _prepare_data_for_post_ method. -/
def hasPostPrepareMethod (rt : List Char) : Bool :=
  if rt = sl "request" ∨ rt = sl "graphql" then true else false

/-- The payload chosen by _execute_webhook_post_request: dispatch on
request_type through hasattr, falling back to the generic builder when
the method name does not exist. -/
def postPreparedPayload (cfg : Config)
    (render renderEsc : List Char → Except PyExc (List Char)) :
    Except PyExc Payload :=
  if hasPostPrepareMethod cfg.request_type then
    if cfg.request_type = sl "graphql" then
      prepare_data_for_post_graphql cfg renderEsc
    else prepare_data_for_post_request cfg render
  else prepare_data_for_post_request cfg render

end Webhook

namespace Webhook

/-! ## str() of a header dict, and safe_eval of the result

_get_webhook_headers turns the parsed header object back into the text
str(dict(...)), which the request executors then evaluate with
safe_eval.  The printer follows the repr rules of Python 3 for the
characters reachable here (delimiter choice between the two quotes, the
named escapes, backslash-x for other control characters; non-printable
code points above 127 would use backslash-u and are modelled as
literal).  The reader accepts the literal grammar that printer emits:
flat or nested dicts and lists with string keys, and string, integer,
True, False and None scalars. -/

/-- The single-quote character, by code point. -/
def sqChar : Char := Char.ofNat 39

/-- repr delimiter choice: single quotes unless the string contains a
single quote and no double quote. -/
def pyReprDelim (s : List Char) : Char :=
  if s.contains sqChar && !(s.contains '\"') then '\"' else sqChar

/-- Lower-case hex digit. -/
def hexDigit (n : Nat) : Char :=
  if n < 10 then Char.ofNat (48 + n) else Char.ofNat (87 + n)

/-- repr escaping of one character under the chosen delimiter. -/
def pyReprEscChar (d : Char) (c : Char) : List Char :=
  if c = '\\' then ['\\', '\\']
  else if c = d then ['\\', d]
  else if c = '\n' then ['\\', 'n']
  else if c = '\r' then ['\\', 'r']
  else if c = '\t' then ['\\', 't']
  else if c.toNat < 32 || c.toNat = 127 then
    ['\\', 'x', hexDigit (c.toNat / 16), hexDigit (c.toNat % 16)]
  else [c]

/-- repr of a Python string. -/
def pyReprStr (s : List Char) : List Char :=
  let d := pyReprDelim s
  d :: s.flatMap (pyReprEscChar d) ++ [d]

mutual

/-- str()/repr() of a value coming out of json.loads (str of a dict
calls repr on every key and value). -/
def pyReprJson : Json → List Char
  | Json.null => sl "None"
  | Json.bool true => sl "True"
  | Json.bool false => sl "False"
  | Json.num n => (toString n).data
  | Json.str s => pyReprStr s
  | Json.arr xs => '[' :: pyReprJsonList xs ++ [']']
  | Json.obj kvs => lbChar :: pyReprJsonMembers kvs ++ [rbChar]

/-- Comma-separated repr of list elements. -/
def pyReprJsonList : List Json → List Char
  | [] => []
  | [x] => pyReprJson x
  | x :: xs => pyReprJson x ++ sl ", " ++ pyReprJsonList xs

/-- Comma-separated repr of dict members. -/
def pyReprJsonMembers : List (List Char × Json) → List Char
  | [] => []
  | [(k, v)] => pyReprStr k ++ sl ": " ++ pyReprJson v
  | (k, v) :: kvs =>
      pyReprStr k ++ sl ": " ++ pyReprJson v ++ sl ", " ++ pyReprJsonMembers kvs

end

/-- Hex digit value, accepting both letter cases. -/
def hexVal (c : Char) : Option Nat :=
  if '0' ≤ c ∧ c ≤ '9' then some (c.toNat - 48)
  else if 'a' ≤ c ∧ c ≤ 'f' then some (c.toNat - 87)
  else if 'A' ≤ c ∧ c ≤ 'F' then some (c.toNat - 55)
  else Option.none

/-- Body of a Python string literal under delimiter d, after the opening
quote. -/
def parsePyStrBody (d : Char) : List Char → Option (List Char × List Char)
  | [] => Option.none
  | c :: rest =>
    if c = d then some ([], rest)
    else if c = '\\' then
      match rest with
      | [] => Option.none
      | e :: rest2 =>
        if e = '\\' then
          (parsePyStrBody d rest2).map (fun p => ('\\' :: p.1, p.2))
        else if e = sqChar then
          (parsePyStrBody d rest2).map (fun p => (sqChar :: p.1, p.2))
        else if e = '\"' then
          (parsePyStrBody d rest2).map (fun p => ('\"' :: p.1, p.2))
        else if e = 'n' then
          (parsePyStrBody d rest2).map (fun p => ('\n' :: p.1, p.2))
        else if e = 'r' then
          (parsePyStrBody d rest2).map (fun p => ('\r' :: p.1, p.2))
        else if e = 't' then
          (parsePyStrBody d rest2).map (fun p => ('\t' :: p.1, p.2))
        else if e = 'x' then
          match rest2 with
          | h1 :: h2 :: rest3 =>
            match hexVal h1, hexVal h2 with
            | some a, some b =>
              (parsePyStrBody d rest3).map
                (fun p => (Char.ofNat (16 * a + b) :: p.1, p.2))
            | _, _ => Option.none
          | _ => Option.none
        else Option.none
    else (parsePyStrBody d rest).map (fun p => (c :: p.1, p.2))

mutual

/-- One Python literal value, by fuel. -/
def parsePyValue : Nat → List Char → Option (Json × List Char)
  | 0, _ => Option.none
  | fuel + 1, l =>
    match skipWS l with
    | [] => Option.none
    | c :: rest =>
      if c = sqChar ∨ c = '\"' then
        (parsePyStrBody c rest).map (fun p => (Json.str p.1, p.2))
      else if c = lbChar then parsePyMembers fuel rest []
      else if c = '[' then parsePyElems fuel rest []
      else if c = 'T' then
        match rest with
        | 'r' :: 'u' :: 'e' :: r => some (Json.bool true, r)
        | _ => Option.none
      else if c = 'F' then
        match rest with
        | 'a' :: 'l' :: 's' :: 'e' :: r => some (Json.bool false, r)
        | _ => Option.none
      else if c = 'N' then
        match rest with
        | 'o' :: 'n' :: 'e' :: r => some (Json.null, r)
        | _ => Option.none
      else if c = '-' then
        (parseDigits rest).map (fun p => (Json.num (-(p.1 : Int)), p.2))
      else if c.isDigit then
        (parseDigits (c :: rest)).map (fun p => (Json.num (p.1 : Int), p.2))
      else Option.none

/-- Dict members, entered right after the opening brace. -/
def parsePyMembers : Nat → List Char → List (List Char × Json) →
    Option (Json × List Char)
  | 0, _, _ => Option.none
  | fuel + 1, l, acc =>
    match skipWS l with
    | [] => Option.none
    | c :: rest =>
      if c = rbChar then some (Json.obj acc, rest)
      else if acc.isEmpty then
        match parsePyMember fuel (c :: rest) with
        | some (kv, r) => parsePyMembers fuel r (dictInsert acc kv.1 kv.2)
        | Option.none => Option.none
      else if c = ',' then
        match parsePyMember fuel rest with
        | some (kv, r) => parsePyMembers fuel r (dictInsert acc kv.1 kv.2)
        | Option.none => Option.none
      else Option.none

/-- One string-keyed member of a dict literal. -/
def parsePyMember : Nat → List Char → Option ((List Char × Json) × List Char)
  | 0, _ => Option.none
  | fuel + 1, l =>
    match skipWS l with
    | c :: r0 =>
      if c = sqChar ∨ c = '\"' then
        match parsePyStrBody c r0 with
        | some (k, r1) =>
          match skipWS r1 with
          | ':' :: r2 =>
            match parsePyValue fuel r2 with
            | some (v, r3) => some ((k, v), r3)
            | Option.none => Option.none
          | _ => Option.none
        | Option.none => Option.none
      else Option.none
    | [] => Option.none

/-- List elements, entered right after the opening bracket. -/
def parsePyElems : Nat → List Char → List Json → Option (Json × List Char)
  | 0, _, _ => Option.none
  | fuel + 1, l, acc =>
    match skipWS l with
    | [] => Option.none
    | c :: rest =>
      if c = ']' then some (Json.arr acc, rest)
      else if acc.isEmpty then
        match parsePyValue fuel (c :: rest) with
        | some (v, r) => parsePyElems fuel r (acc ++ [v])
        | Option.none => Option.none
      else if c = ',' then
        match parsePyValue fuel rest with
        | some (v, r) => parsePyElems fuel r (acc ++ [v])
        | Option.none => Option.none
      else Option.none

end

/-- safe_eval of a dict literal: the headers expression must evaluate to
a dict; anything else (or a literal outside the modelled grammar) is an
evaluation failure. -/
def pySafeEvalDict (l : List Char) : Option (List (List Char × Json)) :=
  match parsePyValue (2 * l.length + 4) l with
  | some (Json.obj kvs, rest) =>
      if (skipWS rest).isEmpty then some kvs else Option.none
  | _ => Option.none

end Webhook

namespace Webhook

/-! ## _get_webhook_headers and the request executors -/

/-- _get_webhook_headers from ir_action_server.py: a falsy headers field
gives str of an empty dict; otherwise json.loads of the stripped text
must give an object (dict() of a non-object raises), and the dict is
printed back with str().  (Python would also accept a parsed list of
pairs in dict(); that corner is outside every claim and modelled as the
raise.) -/
def get_webhook_headers (cfg : Config) : Except PyExc (List Char) :=
  if cfg.headers.isEmpty then Except.ok (pyReprJson (Json.obj []))
  else
    match jsonLoads (pyStrip cfg.headers) with
    | Option.none => Except.error PyExc.jsonDecodeError
    | some (Json.obj kvs) => Except.ok (pyReprJson (Json.obj kvs))
    | some _ => Except.error PyExc.other

/-- The header mapping both executors attach to the outgoing request:
safe_eval applied to the text returned by _get_webhook_headers. -/
def attachedHeaders (cfg : Config) : Except PyExc (List (List Char × Json)) :=
  match get_webhook_headers cfg with
  | Except.error e => Except.error e
  | Except.ok s =>
    match pySafeEvalDict s with
    | some kvs => Except.ok kvs
    | Option.none => Except.error PyExc.other

/-- DEFAULT_GET_TIMEOUT from ir_action_server.py. -/
def DEFAULT_GET_TIMEOUT : Nat := 5

/-- DEFAULT_POST_TIMEOUT from ir_action_server.py. -/
def DEFAULT_POST_TIMEOUT : Nat := 5

/-- One outgoing HTTP call as handed to the requests library. -/
structure HttpCall where
  endpoint : List Char
  headers : List (List Char × Json)
  payload : Payload
  timeout : Nat

/-- _execute_webhook_get_request: headers from safe_eval of
_get_webhook_headers, params from the rendered template, one GET call
with the fixed timeout.  (The source guards empty params with a fresh
empty dict; the claims never reach that corner.) -/
def execute_webhook_get_request (cfg : Config)
    (render : List Char → Except PyExc (List Char))
    (http : HttpCall → Except PyExc Response) :
    Except PyExc (Response × Payload) :=
  match attachedHeaders cfg with
  | Except.error e => Except.error e
  | Except.ok hs =>
    match prepare_data_for_get cfg render with
    | Except.error e => Except.error e
    | Except.ok params =>
      match http { endpoint := cfg.endpoint, headers := hs, payload := params,
                   timeout := DEFAULT_GET_TIMEOUT } with
      | Except.error e => Except.error e
      | Except.ok r => Except.ok (r, params)

/-- _execute_webhook_post_request: headers as for GET, payload through
the hasattr dispatch on request_type, one POST call with the fixed
timeout. -/
def execute_webhook_post_request (cfg : Config)
    (render renderEsc : List Char → Except PyExc (List Char))
    (http : HttpCall → Except PyExc Response) :
    Except PyExc (Response × Payload) :=
  match attachedHeaders cfg with
  | Except.error e => Except.error e
  | Except.ok hs =>
    match postPreparedPayload cfg render renderEsc with
    | Except.error e => Except.error e
    | Except.ok payload =>
      match http { endpoint := cfg.endpoint, headers := hs, payload := payload,
                   timeout := DEFAULT_POST_TIMEOUT } with
      | Except.error e => Except.error e
      | Except.ok r => Except.ok (r, payload)

end Webhook

namespace Webhook

/-! ## Spec-side helpers and concrete fixtures -/

/-- View a string-to-string mapping as the JSON object json.loads would
return for it. -/
def strJson (m : List (List Char × List Char)) : List (List Char × Json) :=
  m.map (fun p => (p.1, Json.str p.2))

/-- The printed member run of a dict, parameterised by whether the run
starts at the first member (no leading comma) — the shape the safe_eval
reader walks through. -/
def membersTextAux : List (List Char × List Char) → Bool → List Char
  | [], _ => []
  | (k, v) :: kvs, first =>
    (if first then [] else [',', ' ']) ++ pyReprStr k ++ [':', ' '] ++ pyReprStr v
      ++ membersTextAux kvs false

/-- Record with a single field msg holding the text He said "hi" followed
by one literal newline character. -/
def recC7 : String → Option PyVal :=
  fun f => if f = "msg" then some (PyVal.str (sl "He said \"hi\"\n")) else Option.none

/-- Record used to witness claim C8. -/
def recC8 : String → Option PyVal :=
  fun f => if f = "note" then some (PyVal.str (sl " a\"b ")) else Option.none

/-- A server-action configuration as stored for a custom_webhook action:
the action-type field holds the server-action identifier, logging is
off. -/
def cfgBase : Config :=
  { name := sl "Test outgoing webhook"
  , endpoint := sl "https://example.test/hook"
  , headers := sl ""
  , body_template := sl "T"
  , request_method := sl "post"
  , request_type := sl "request"
  , log_webhook_calls := false
  , delay_execution := false
  , delay := 0
  , type := sl "ir.actions.server" }

/-- The same action with call logging switched on. -/
def cfgFlag : Config := { cfgBase with log_webhook_calls := true }

/-- A graphql-typed action as actually stored: request_type graphql, the
action-type field still the server-action identifier. -/
def cfgC3 : Config := { cfgBase with request_type := sl "graphql" }

/-- The hypothetical record the classifier branch actually tests for:
the action-type field itself set to graphql. -/
def cfgC3b : Config :=
  { cfgBase with request_type := sl "graphql", type := sl "graphql" }

/-- Transport-success response whose body nests a statusCode of 404
under the data member. -/
def respC3 : Response :=
  { status_code := 200
  , body := sl "\x7b\"data\": \x7b\"x\": \x7b\"statusCode\": 404\x7d\x7d\x7d" }

/-- Response whose body nests two statusCode values under data; the scan
sees 404 first and 500 last. -/
def respC3c : Response :=
  { status_code := 200
  , body := sl "\x7b\"data\": \x7b\"a\": \x7b\"statusCode\": 404\x7d, \"b\": \x7b\"statusCode\": 500\x7d\x7d\x7d" }

/-- Transport-success response with a body that is not JSON. -/
def respBad : Response := { status_code := 200, body := sl "not json" }

/-- Empty-bodied response with a 204 status. -/
def respEmpty204 : Response := { status_code := 204, body := sl "" }

/-- Response for the C4 witness: raw status 201, body steering the
graphql classifier to 200. -/
def respC4 : Response :=
  { status_code := 201
  , body := sl "\x7b\"data\": \x7b\"x\": \x7b\"statusCode\": 200\x7d\x7d\x7d" }

/-- Graphql-typed action (on the field the code reads) with logging on,
for the C4 witness. -/
def cfgC4 : Config :=
  { cfgBase with log_webhook_calls := true, type := sl "graphql" }

/-- Request outcome oracle that fails every record with a connection
error. -/
def callsConnErr : Nat → Except PyExc (Response × Payload) :=
  fun _ => Except.error PyExc.connectionError

/-- Action with request_type slack, for claim C9. -/
def cfgSlack : Config := { cfgBase with request_type := sl "slack" }

/-- Concrete render oracle for witnesses. -/
def renderW : List Char → Except PyExc (List Char) := fun _ => Except.ok (sl "B")

/-- Concrete escape-context render oracle for witnesses. -/
def renderEscW : List Char → Except PyExc (List Char) :=
  fun _ => Except.ok (sl "Q")

/-- Concrete transport oracle for witnesses. -/
def httpW : HttpCall → Except PyExc Response :=
  fun _ => Except.ok { status_code := 200, body := sl "" }

/-- Action whose stored headers field is a one-member JSON object. -/
def cfgHdr : Config := { cfgBase with headers := sl " \x7b\"a\": \"b\"\x7d " }

end Webhook
namespace Webhook

theorem pyReplace1_append (old : Char) (new : List Char) (a b : List Char) :
    pyReplace1 old new (a ++ b) = pyReplace1 old new a ++ pyReplace1 old new b := by
  induction a with
  | nil => rfl
  | cons c cs ih => simp [pyReplace1, ih]

theorem seqReplaceAll_append (a b : List Char) :
    seqReplaceAll (a ++ b) = seqReplaceAll a ++ seqReplaceAll b := by
  simp [seqReplaceAll, List.zip, ESCAPE_CHARS, REPLACE_CHARS, List.foldl,
    pyReplace1_append]

theorem seqReplaceAll_single (c : Char) : seqReplaceAll [c] = escChar1 c := by
  by_cases h1 : c = '\"'
  · subst h1; rfl
  · by_cases h2 : c = '\n'
    · subst h2; rfl
    · by_cases h3 : c = '\r'
      · subst h3; rfl
      · by_cases h4 : c = '\t'
        · subst h4; rfl
        · by_cases h5 : c = '\x08'
          · subst h5; rfl
          · by_cases h6 : c = '\x0c'
            · subst h6; rfl
            · simp [seqReplaceAll, ESCAPE_CHARS, REPLACE_CHARS, List.zip,
                List.foldl, pyReplace1, escChar1, h1, h2, h3, h4, h5, h6]

/-- The sequential replacement loop equals the independent single pass:
replacement targets are single literal characters none of which occurs in
any replacement text, so later replacements never rescan earlier output. -/
theorem seqReplaceAll_eq_onePass (s : List Char) :
    seqReplaceAll s = escapeOnePass s := by
  induction s with
  | nil => rfl
  | cons c cs ih =>
      have h : seqReplaceAll (c :: cs) = seqReplaceAll [c] ++ seqReplaceAll cs := by
        simpa using seqReplaceAll_append [c] cs
      simp [h, seqReplaceAll_single, escapeOnePass, ih]

/-- Claim C7, counterexample: escape on a field whose value ends in a
literal newline does not yield a trailing backslash-n pair, because
get_escaped_value strips leading and trailing whitespace before doing any
replacement; the claimed output He said backslash-quote hi
backslash-quote backslash-n is therefore not produced. -/
theorem c7_claimed_output_refuted :
    get_escaped_value recC7 "msg" ≠ PyVal.str (sl "He said \\\"hi\\\"\\n") := by
  decide

/-- Claim C7 as amended: escape on a field holding the text He said "hi"
followed by a newline first trims the trailing newline, then turns each
literal double quote into backslash-quote, yielding He said
backslash-quote hi backslash-quote with no trailing escape pair. -/
theorem c7_escape_example_trimmed :
    get_escaped_value recC7 "msg" = PyVal.str (sl "He said \\\"hi\\\"") := by
  decide

/-- Claim C8: get_escaped_value returns False when the field is absent;
on a present non-empty string it trims surrounding whitespace and then
replaces each of the six characters (double quote, newline, carriage
return, tab, backspace, form feed) by its two-character sequence — the
sequential fixed-order replacement of the source equals the independent
single pass escapeOnePass, and any character outside ESCAPE_CHARS, the
backslash included, is left alone; on every other value it returns the
raw field value unchanged. -/
theorem c8_escape_contract (record : String → Option PyVal) (field : String) :
    (record field = Option.none → get_escaped_value record field = PyVal.bool false) ∧
    (∀ s : List Char, record field = some (PyVal.str s) → s ≠ [] →
      get_escaped_value record field = PyVal.str (escapeOnePass (pyStrip s))) ∧
    (∀ v : PyVal, record field = some v → (pyTruthy v && pyIsStr v) = false →
      get_escaped_value record field = v) ∧
    (∀ c : Char, c ∉ ESCAPE_CHARS → escChar1 c = [c]) := by
  refine ⟨?_, ?_, ?_, ?_⟩
  · intro h
    simp [get_escaped_value, h, pyTruthy]
  · intro s hs hne
    have ht : (pyTruthy (PyVal.str s) && pyIsStr (PyVal.str s)) = true := by
      simp [pyTruthy, pyIsStr, hne]
    simp only [get_escaped_value, hs, Option.getD_some]
    rw [if_pos ht]
    simp [pyStrData, seqReplaceAll_eq_onePass]
  · intro v hv hfalse
    simp [get_escaped_value, hv, hfalse]
  · intro c hc
    simp only [ESCAPE_CHARS, List.mem_cons, List.not_mem_nil, or_false] at hc
    push_neg at hc
    obtain ⟨h1, h2, h3, h4, h5, h6⟩ := hc
    simp [escChar1, h1, h2, h3, h4, h5, h6]

/-- Witness for claim C8 at a concrete record: the field value carries
surrounding blanks and one double quote, and the helper trims then
escapes it. -/
theorem c8_escape_contract_witness :
    get_escaped_value recC8 "note" = PyVal.str (sl "a\\\"b") :=
  ((c8_escape_contract recC8 "note").2.1 (sl " a\"b ") rfl (by decide)).trans
    (by decide)

end Webhook

namespace Webhook

/-! ## Failure-path and attempt-level lemmas -/

theorem failedOutcome_eq (cfg : Config) (resp : Option Response) (e : PyExc)
    (body : Option Payload) :
    failedOutcome cfg resp e body =
      { success := false, logs := [],
        diag := some (classify_exception e),
        escaped := if cfg.log_webhook_calls then some PyExc.attributeError
                   else Option.none } := by
  by_cases h : cfg.log_webhook_calls <;>
    simp [failedOutcome, handle_exception, webhook_logging, pyContent, h]

theorem jsonEqInt_200 (sc : Json) : jsonEqInt sc 200 = true ↔ sc = Json.num 200 := by
  cases sc <;> simp [jsonEqInt]

/-- Claim C1, counterexample: a failed attempt with logging disabled
creates no WebhookLogEntry at all, not exactly one. -/
theorem c1_counterexample_no_log_without_flag :
    (execute_webhook cfgBase (Except.error PyExc.connectionError)).success = false ∧
    (execute_webhook cfgBase (Except.error PyExc.connectionError)).logs.length ≠ 1 := by
  decide

/-- Claim C1 as amended: a failed attempt never creates a
WebhookLogEntry — with logWebhookCalls false the logging helper returns
without creating one, and with it true the helper raises AttributeError
reading .content off the exception object before the create happens. -/
theorem c1_failed_attempt_creates_no_log (cfg : Config)
    (call : Except PyExc (Response × Payload))
    (h : (execute_webhook cfg call).success = false) :
    (execute_webhook cfg call).logs = [] := by
  unfold execute_webhook at h ⊢
  cases call with
  | error e => simp [failedOutcome_eq]
  | ok rp =>
    obtain ⟨r, payload⟩ := rp
    cases hr : raise_for_status r with
    | error e => simp [hr, failedOutcome_eq]
    | ok u =>
      simp only [hr] at h ⊢
      cases hs : get_body_status_code cfg r with
      | error e => simp [hs, failedOutcome_eq]
      | ok sc =>
        simp only [hs] at h ⊢
        by_cases hj : jsonEqInt sc 200
        · exfalso
          simp only [hj, Bool.not_true, if_neg] at h
          cases hw : webhook_logging cfg (some payload) (RespOrExc.resp r) <;>
            simp [hw] at h
        · simp [hj, failedOutcome_eq]

/-- Witness for the amended claim C1 at a concrete failed attempt. -/
theorem c1_failed_attempt_creates_no_log_witness :
    (execute_webhook cfgBase (Except.error PyExc.connectionError)).logs = [] :=
  c1_failed_attempt_creates_no_log cfgBase (Except.error PyExc.connectionError)
    (by decide)

/-- Claim C2, failing input: with logging enabled, the first record of a
two-record batch fails with a connection error; the logging step inside
the failure handler raises AttributeError, which escapes _execute_webhook
and aborts the loop before the second record — with logging disabled the
same batch runs both records to completion. -/
theorem c2_logging_failure_aborts_batch :
    run_action_custom_webhook_multi cfgFlag callsConnErr [1, 2] =
      { executed := [1], logs := [], scheduled := [],
        escaped := some PyExc.attributeError } ∧
    run_action_custom_webhook_multi cfgBase callsConnErr [1, 2] =
      { executed := [1, 2], logs := [], scheduled := [],
        escaped := Option.none } := by
  decide

/-- Claim C4: the attempt succeeds exactly when the call returned a
response, the status is outside the 4xx and 5xx raise range, and the
classified status is exactly the number 200; and a successful attempt
with logging on creates exactly one row whose status field is the raw
transport status code of the response, not the classified status. -/
theorem c4_success_iff_and_raw_status_logged (cfg : Config)
    (call : Except PyExc (Response × Payload)) :
    ((execute_webhook cfg call).success = true ↔
      ∃ r payload, call = Except.ok (r, payload) ∧
        ¬(400 ≤ r.status_code ∧ r.status_code < 600) ∧
        get_body_status_code cfg r = Except.ok (Json.num 200)) ∧
    (∀ r payload, call = Except.ok (r, payload) →
      (execute_webhook cfg call).success = true →
      cfg.log_webhook_calls = true →
      (execute_webhook cfg call).logs =
        [{ webhook_type := sl "outgoing", webhook := cfg.name,
           endpoint := cfg.endpoint, headers := cfg.headers,
           body := ustrPayload (some payload), response := r.body,
           status := some r.status_code }]) := by
  constructor
  · constructor
    · intro h
      unfold execute_webhook at h
      cases call with
      | error e => simp [failedOutcome_eq] at h
      | ok rp =>
        obtain ⟨r, payload⟩ := rp
        cases hr : raise_for_status r with
        | error e => simp [hr, failedOutcome_eq] at h
        | ok u =>
          simp only [hr] at h
          cases hs : get_body_status_code cfg r with
          | error e => simp [hs, failedOutcome_eq] at h
          | ok sc =>
            simp only [hs] at h
            by_cases hj : jsonEqInt sc 200
            · have hc : ¬(400 ≤ r.status_code ∧ r.status_code < 600) := by
                intro hc
                simp [raise_for_status, hc] at hr
              exact ⟨r, payload, rfl, hc, by rw [hs, (jsonEqInt_200 sc).mp hj]⟩
            · simp [hj, failedOutcome_eq] at h
    · rintro ⟨r, payload, rfl, hc, hs⟩
      have hr : raise_for_status r = Except.ok () := by
        simp [raise_for_status, hc]
      unfold execute_webhook
      simp only [hr, hs]
      have hj : jsonEqInt (Json.num 200) 200 = true := by decide
      simp only [hj, Bool.not_true, if_neg]
      cases hw : webhook_logging cfg (some payload) (RespOrExc.resp r) <;>
        simp [hw]
  · rintro r payload rfl hsucc hflag
    unfold execute_webhook at hsucc ⊢
    cases hr : raise_for_status r with
    | error e => simp [hr, failedOutcome_eq] at hsucc
    | ok u =>
      simp only [hr] at hsucc ⊢
      cases hs : get_body_status_code cfg r with
      | error e => simp [hs, failedOutcome_eq] at hsucc
      | ok sc =>
        simp only [hs] at hsucc ⊢
        by_cases hj : jsonEqInt sc 200
        · simp only [hj, Bool.not_true, if_neg]
          simp [webhook_logging, hflag, pyContent, pyStatusAttr]
        · simp [hj, failedOutcome_eq] at hsucc

/-- Witness for claim C4: raw status 201 with a graphql-typed action
whose body classifies to 200 — the attempt succeeds and the one log row
records the raw 201. -/
theorem c4_success_witness :
    (execute_webhook cfgC4 (Except.ok (respC4, Payload.bytes (sl "B")))).success
        = true ∧
    (execute_webhook cfgC4 (Except.ok (respC4, Payload.bytes (sl "B")))).logs =
      [{ webhook_type := sl "outgoing", webhook := cfgC4.name,
         endpoint := cfgC4.endpoint, headers := cfgC4.headers,
         body := ustrPayload (some (Payload.bytes (sl "B"))),
         response := respC4.body, status := some 201 }] := by
  have h := c4_success_iff_and_raw_status_logged cfgC4
    (Except.ok (respC4, Payload.bytes (sl "B")))
  have hs : (execute_webhook cfgC4
      (Except.ok (respC4, Payload.bytes (sl "B")))).success = true :=
    h.1.mpr ⟨respC4, Payload.bytes (sl "B"), rfl, by decide, by rfl⟩
  exact ⟨hs, h.2 respC4 (Payload.bytes (sl "B")) rfl hs rfl⟩

/-- Claim C5, counterexample: on a failed attempt with logging enabled
and no response object, the claimed log entry (status empty, response
the stringified exception) is never created — the logging step raises
AttributeError instead and nothing is recorded. -/
theorem c5_counterexample_no_entry_recorded :
    (execute_webhook cfgFlag (Except.error PyExc.connectionError)).logs = [] ∧
    (execute_webhook cfgFlag (Except.error PyExc.connectionError)).escaped =
      some PyExc.attributeError := by
  decide

/-- Claim C5 as amended: the failure handler passes the exception object
where the logger expects the response, so no entry is ever recorded on
the failure path: with logWebhookCalls false the logger returns having
created nothing, and with it true the read of .content off the exception
raises AttributeError before the create; the response status never
reaches the log. -/
theorem c5_amended_failure_path_logging (cfg : Config) (resp : Option Response)
    (e : PyExc) (body : Option Payload) :
    (failedOutcome cfg resp e body).logs = [] ∧
    (failedOutcome cfg resp e body).escaped =
      (if cfg.log_webhook_calls then some PyExc.attributeError
       else Option.none) ∧
    (failedOutcome cfg resp e body).diag = some (classify_exception e) := by
  by_cases h : cfg.log_webhook_calls <;> simp [failedOutcome_eq, h]

/-- Claim C3, evaluation at the failing input: with request_type graphql
but the action-type field holding the server-action identifier (as every
stored server action does), the classifier — whose own docstring says it
checks by request type — returns the raw 200 and the attempt succeeds
instead of classifying 404 and failing; only when the action-type field
itself says graphql does the body scan run, and then the last statusCode
found wins (404 then 500 gives 500). -/
theorem c3_classifier_keys_on_type_not_request_type :
    get_body_status_code cfgC3 respC3 = Except.ok (Json.num 200) ∧
    (execute_webhook cfgC3 (Except.ok (respC3, Payload.bytes (sl "B")))).success
        = true ∧
    get_body_status_code cfgC3b respC3 = Except.ok (Json.num 404) ∧
    get_body_status_code cfgC3b respC3c = Except.ok (Json.num 500) := by
  refine ⟨rfl, by decide, rfl, rfl⟩

/-- Claim C6, counterexample: a graphql-typed response (on the field the
code reads) with a non-JSON body makes the classifier raise a JSON
decode error rather than fall back to the raw HTTP status; the attempt
fails even though the transport returned 200. -/
theorem c6_malformed_json_raises_not_falls_back :
    get_body_status_code cfgC3b respBad = Except.error PyExc.jsonDecodeError ∧
    (execute_webhook cfgC3b (Except.ok (respBad, Payload.bytes (sl "B")))).success
        = false := by
  exact ⟨rfl, by decide⟩

/-- Claim C6 as amended: for a graphql-typed response an empty body
falls back silently to the raw HTTP status, but a nonempty body that is
not parseable JSON raises the decode error out of the classifier (the
raise is then caught at the attempt boundary, failing the attempt). -/
theorem c6_amended_empty_falls_back_malformed_raises (cfg : Config) (r : Response)
    (hg : cfg.type = sl "graphql") :
    (r.body = [] → get_body_status_code cfg r = Except.ok (Json.num r.status_code)) ∧
    (r.body ≠ [] → jsonLoads r.body = Option.none →
      get_body_status_code cfg r = Except.error PyExc.jsonDecodeError) := by
  constructor
  · intro hb
    simp [get_body_status_code, hg, hb]
  · intro hb hj
    cases hb' : r.body with
    | nil => exact absurd hb' hb
    | cons c cs =>
      rw [hb'] at hj
      simp [get_body_status_code, hg, hb', hj]

/-- Witness for the amended claim C6 at a concrete empty-bodied
response. -/
theorem c6_amended_witness :
    get_body_status_code cfgC3b respEmpty204 = Except.ok (Json.num 204) :=
  (c6_amended_empty_falls_back_malformed_raises cfgC3b respEmpty204 rfl).1 rfl

/-- Claim C9: a POST whose request_type is slack or any other value
outside the two defined prepare methods falls back to the generic body
construction — the chosen payload equals the generic one and the whole
POST execution equals the one with request_type request. -/
theorem c9_unknown_type_falls_back_to_generic (cfg : Config)
    (render renderEsc : List Char → Except PyExc (List Char))
    (http : HttpCall → Except PyExc Response)
    (h1 : cfg.request_type ≠ sl "request") (h2 : cfg.request_type ≠ sl "graphql") :
    postPreparedPayload cfg render renderEsc =
      prepare_data_for_post_request cfg render ∧
    execute_webhook_post_request cfg render renderEsc http =
      execute_webhook_post_request { cfg with request_type := sl "request" }
        render renderEsc http := by
  have hp : hasPostPrepareMethod cfg.request_type = false := by
    simp [hasPostPrepareMethod, h1, h2]
  have hneq : sl "request" ≠ sl "graphql" := by decide
  have htrue : hasPostPrepareMethod (sl "request") = true := by decide
  constructor
  · simp [postPreparedPayload, hp]
  · have hah : attachedHeaders { cfg with request_type := sl "request" } =
        attachedHeaders cfg := rfl
    simp [execute_webhook_post_request, postPreparedPayload, hp, htrue,
      prepare_data_for_post_request, hneq, hah]

/-- Witness for claim C9 at a concrete slack-typed action. -/
theorem c9_unknown_type_witness :
    execute_webhook_post_request cfgSlack renderW renderEscW httpW =
      execute_webhook_post_request { cfgSlack with request_type := sl "request" }
        renderW renderEscW httpW :=
  (c9_unknown_type_falls_back_to_generic cfgSlack renderW renderEscW httpW
    (by decide) (by decide)).2

end Webhook
namespace Webhook

theorem charOfNat_toNat_small (c : Char) (h : c.toNat < 128) :
    Char.ofNat c.toNat = c := by
  have key : ∀ n, n < 128 → (Char.ofNat n).toNat = n := by decide
  exact Char.eq_of_val_eq (UInt32.ext (key _ h))

theorem hexVal_hexDigit : ∀ n, n < 16 → hexVal (hexDigit n) = some n := by decide

theorem pyReprDelim_cases (s : List Char) :
    pyReprDelim s = sqChar ∨ pyReprDelim s = '\"' := by
  unfold pyReprDelim
  by_cases h : s.contains sqChar && !(s.contains '\"')
  · right; rw [if_pos h]
  · left; rw [if_neg h]

theorem parsePyStrBody_close (d : Char) (hd : d = sqChar ∨ d = '\"')
    (rest : List Char) :
    parsePyStrBody d (d :: rest) = some ([], rest) := by
  rcases hd with rfl | rfl <;>
  · conv_lhs => rw [parsePyStrBody.eq_def]
    simp

theorem parsePyStrBody_step (d c : Char) (hd : d = sqChar ∨ d = '\"')
    (tail : List Char) :
    parsePyStrBody d (pyReprEscChar d c ++ tail) =
      (parsePyStrBody d tail).map (fun p => (c :: p.1, p.2)) := by
  rcases hd with rfl | rfl
  · by_cases h1 : c = '\\'
    · subst h1
      rw [show pyReprEscChar sqChar '\\' = ['\\', '\\'] from by simp [pyReprEscChar]]
      conv_lhs => rw [parsePyStrBody.eq_def]
      simp [(by decide : ('\\' : Char) ≠ (sqChar : Char))]
    · by_cases h2 : c = sqChar
      · subst h2
        rw [show pyReprEscChar sqChar sqChar = ['\\', sqChar] from by
          simp [pyReprEscChar, (by decide : (sqChar : Char) ≠ ('\\' : Char))]]
        conv_lhs => rw [parsePyStrBody.eq_def]
        simp [(by decide : ('\\' : Char) ≠ (sqChar : Char)), (by decide : (sqChar : Char) ≠ ('\\' : Char))]
      · by_cases h3 : c = '\n'
        · subst h3
          rw [show pyReprEscChar sqChar '\n' = ['\\', 'n'] from by
            simp [pyReprEscChar, (by decide : ('\n' : Char) ≠ ('\\' : Char)), (by decide : ('\n' : Char) ≠ (sqChar : Char))]]
          conv_lhs => rw [parsePyStrBody.eq_def]
          simp [(by decide : ('\\' : Char) ≠ (sqChar : Char)),
            (by decide : ('n' : Char) ≠ ('\\' : Char)),
            (by decide : ('n' : Char) ≠ (sqChar : Char)),
            (by decide : ('n' : Char) ≠ ('\"' : Char))]
        · by_cases h4 : c = '\r'
          · subst h4
            rw [show pyReprEscChar sqChar '\r' = ['\\', 'r'] from by
              simp [pyReprEscChar, (by decide : ('\r' : Char) ≠ ('\\' : Char)), (by decide : ('\r' : Char) ≠ (sqChar : Char)), (by decide : ('\r' : Char) ≠ ('\n' : Char))]]
            conv_lhs => rw [parsePyStrBody.eq_def]
            simp [(by decide : ('\\' : Char) ≠ (sqChar : Char)),
              (by decide : ('r' : Char) ≠ ('\\' : Char)),
              (by decide : ('r' : Char) ≠ (sqChar : Char)),
              (by decide : ('r' : Char) ≠ ('\"' : Char)),
              (by decide : ('r' : Char) ≠ ('n' : Char))]
          · by_cases h5 : c = '\t'
            · subst h5
              rw [show pyReprEscChar sqChar '\t' = ['\\', 't'] from by
                simp [pyReprEscChar, (by decide : ('\t' : Char) ≠ ('\\' : Char)), (by decide : ('\t' : Char) ≠ (sqChar : Char)), (by decide : ('\t' : Char) ≠ ('\n' : Char)), (by decide : ('\t' : Char) ≠ ('\r' : Char))]]
              conv_lhs => rw [parsePyStrBody.eq_def]
              simp [(by decide : ('\\' : Char) ≠ (sqChar : Char)),
                (by decide : ('t' : Char) ≠ ('\\' : Char)),
                (by decide : ('t' : Char) ≠ (sqChar : Char)),
                (by decide : ('t' : Char) ≠ ('\"' : Char)),
                (by decide : ('t' : Char) ≠ ('n' : Char)),
                (by decide : ('t' : Char) ≠ ('r' : Char))]
            · by_cases h6 : (c.toNat < 32 || c.toNat = 127 : Bool)
              · have h6p : c.toNat < 32 ∨ c.toNat = 127 := by simpa using h6
                have hlt : c.toNat < 128 := by omega
                have hdiv : c.toNat / 16 < 16 := by omega
                have hmod : c.toNat % 16 < 16 := by omega
                rw [show pyReprEscChar sqChar c =
                    ['\\', 'x', hexDigit (c.toNat / 16), hexDigit (c.toNat % 16)] from by
                  simp [pyReprEscChar, h1, h2, h3, h4, h5, h6]]
                conv_lhs => rw [parsePyStrBody.eq_def]
                simp [hexVal_hexDigit _ hdiv, hexVal_hexDigit _ hmod,
                  Nat.div_add_mod, charOfNat_toNat_small c hlt,
                  (by decide : ('\\' : Char) ≠ (sqChar : Char)),
                  (by decide : ('x' : Char) ≠ ('\\' : Char)),
                  (by decide : ('x' : Char) ≠ (sqChar : Char)),
                  (by decide : ('x' : Char) ≠ ('\"' : Char)),
                  (by decide : ('x' : Char) ≠ ('n' : Char)),
                  (by decide : ('x' : Char) ≠ ('r' : Char)),
                  (by decide : ('x' : Char) ≠ ('t' : Char))]
              · rw [show pyReprEscChar sqChar c = [c] from by
                  simp [pyReprEscChar, h1, h2, h3, h4, h5, h6]]
                conv_lhs => rw [parsePyStrBody.eq_def]
                simp [h1, h2]
  · by_cases h1 : c = '\\'
    · subst h1
      rw [show pyReprEscChar '\"' '\\' = ['\\', '\\'] from by simp [pyReprEscChar]]
      conv_lhs => rw [parsePyStrBody.eq_def]
      simp [(by decide : ('\\' : Char) ≠ ('\"' : Char))]
    · by_cases h2 : c = '\"'
      · subst h2
        rw [show pyReprEscChar '\"' '\"' = ['\\', '\"'] from by
          simp [pyReprEscChar, (by decide : ('\"' : Char) ≠ ('\\' : Char))]]
        conv_lhs => rw [parsePyStrBody.eq_def]
        simp [(by decide : ('\\' : Char) ≠ ('\"' : Char)), (by decide : ('\"' : Char) ≠ ('\\' : Char)), (by decide : ('\"' : Char) ≠ (sqChar : Char))]
      · by_cases h3 : c = '\n'
        · subst h3
          rw [show pyReprEscChar '\"' '\n' = ['\\', 'n'] from by
            simp [pyReprEscChar, (by decide : ('\n' : Char) ≠ ('\\' : Char)), (by decide : ('\n' : Char) ≠ ('\"' : Char))]]
          conv_lhs => rw [parsePyStrBody.eq_def]
          simp [(by decide : ('\\' : Char) ≠ ('\"' : Char)),
            (by decide : ('n' : Char) ≠ ('\\' : Char)),
            (by decide : ('n' : Char) ≠ (sqChar : Char)),
            (by decide : ('n' : Char) ≠ ('\"' : Char))]
        · by_cases h4 : c = '\r'
          · subst h4
            rw [show pyReprEscChar '\"' '\r' = ['\\', 'r'] from by
              simp [pyReprEscChar, (by decide : ('\r' : Char) ≠ ('\\' : Char)), (by decide : ('\r' : Char) ≠ ('\"' : Char)), (by decide : ('\r' : Char) ≠ ('\n' : Char))]]
            conv_lhs => rw [parsePyStrBody.eq_def]
            simp [(by decide : ('\\' : Char) ≠ ('\"' : Char)),
              (by decide : ('r' : Char) ≠ ('\\' : Char)),
              (by decide : ('r' : Char) ≠ (sqChar : Char)),
              (by decide : ('r' : Char) ≠ ('\"' : Char)),
              (by decide : ('r' : Char) ≠ ('n' : Char))]
          · by_cases h5 : c = '\t'
            · subst h5
              rw [show pyReprEscChar '\"' '\t' = ['\\', 't'] from by
                simp [pyReprEscChar, (by decide : ('\t' : Char) ≠ ('\\' : Char)), (by decide : ('\t' : Char) ≠ ('\"' : Char)), (by decide : ('\t' : Char) ≠ ('\n' : Char)), (by decide : ('\t' : Char) ≠ ('\r' : Char))]]
              conv_lhs => rw [parsePyStrBody.eq_def]
              simp [(by decide : ('\\' : Char) ≠ ('\"' : Char)),
                (by decide : ('t' : Char) ≠ ('\\' : Char)),
                (by decide : ('t' : Char) ≠ (sqChar : Char)),
                (by decide : ('t' : Char) ≠ ('\"' : Char)),
                (by decide : ('t' : Char) ≠ ('n' : Char)),
                (by decide : ('t' : Char) ≠ ('r' : Char))]
            · by_cases h6 : (c.toNat < 32 || c.toNat = 127 : Bool)
              · have h6p : c.toNat < 32 ∨ c.toNat = 127 := by simpa using h6
                have hlt : c.toNat < 128 := by omega
                have hdiv : c.toNat / 16 < 16 := by omega
                have hmod : c.toNat % 16 < 16 := by omega
                rw [show pyReprEscChar '\"' c =
                    ['\\', 'x', hexDigit (c.toNat / 16), hexDigit (c.toNat % 16)] from by
                  simp [pyReprEscChar, h1, h2, h3, h4, h5, h6]]
                conv_lhs => rw [parsePyStrBody.eq_def]
                simp [hexVal_hexDigit _ hdiv, hexVal_hexDigit _ hmod,
                  Nat.div_add_mod, charOfNat_toNat_small c hlt,
                  (by decide : ('\\' : Char) ≠ ('\"' : Char)),
                  (by decide : ('x' : Char) ≠ ('\\' : Char)),
                  (by decide : ('x' : Char) ≠ (sqChar : Char)),
                  (by decide : ('x' : Char) ≠ ('\"' : Char)),
                  (by decide : ('x' : Char) ≠ ('n' : Char)),
                  (by decide : ('x' : Char) ≠ ('r' : Char)),
                  (by decide : ('x' : Char) ≠ ('t' : Char))]
              · rw [show pyReprEscChar '\"' c = [c] from by
                  simp [pyReprEscChar, h1, h2, h3, h4, h5, h6]]
                conv_lhs => rw [parsePyStrBody.eq_def]
                simp [h1, h2]

theorem parsePyStrBody_roundtrip (d : Char) (hd : d = sqChar ∨ d = '\"')
    (s rest : List Char) :
    parsePyStrBody d (s.flatMap (pyReprEscChar d) ++ d :: rest) = some (s, rest) := by
  induction s with
  | nil => simpa using parsePyStrBody_close d hd rest
  | cons c cs ih =>
      rw [List.flatMap_cons, List.append_assoc, parsePyStrBody_step d c hd, ih]
      rfl

end Webhook
namespace Webhook

theorem skipWS_cons_notWS (c : Char) (l : List Char) (h : jsonWS c = false) :
    skipWS (c :: l) = c :: l := by
  simp [skipWS, List.dropWhile_cons, h]

theorem skipWS_space (l : List Char) : skipWS (' ' :: l) = skipWS l := by
  simp [skipWS, List.dropWhile_cons, (by decide : jsonWS ' ' = true)]

theorem pyReprDelim_not_ws (s : List Char) : jsonWS (pyReprDelim s) = false := by
  rcases pyReprDelim_cases s with h | h <;> rw [h] <;> decide

theorem pyReprDelim_ne_rb (s : List Char) : ¬(pyReprDelim s = rbChar) := by
  rcases pyReprDelim_cases s with h | h <;> rw [h] <;> decide

theorem pyReprStr_eq (s : List Char) :
    pyReprStr s =
      pyReprDelim s :: (s.flatMap (pyReprEscChar (pyReprDelim s)) ++ [pyReprDelim s]) :=
  rfl

theorem skipWS_pyReprStr (s : List Char) (x : List Char) :
    skipWS (pyReprStr s ++ x) = pyReprStr s ++ x := by
  rw [pyReprStr_eq, List.cons_append]
  exact skipWS_cons_notWS _ _ (pyReprDelim_not_ws s)

theorem parsePyStrBody_reprTail (s : List Char) (x : List Char) :
    parsePyStrBody (pyReprDelim s)
      (s.flatMap (pyReprEscChar (pyReprDelim s)) ++ [pyReprDelim s] ++ x) =
      some (s, x) := by
  rw [List.append_assoc, List.singleton_append]
  exact parsePyStrBody_roundtrip (pyReprDelim s) (pyReprDelim_cases s) s x

theorem parsePyValue_str (f : Nat) (hf : 1 ≤ f) (v tail l : List Char)
    (hl : skipWS l = pyReprStr v ++ tail) :
    parsePyValue f l = some (Json.str v, tail) := by
  obtain ⟨f1, rfl⟩ : ∃ f1, f = f1 + 1 := ⟨f - 1, by omega⟩
  have hq := pyReprDelim_cases v
  have hbody := parsePyStrBody_reprTail v tail
  rw [pyReprStr_eq v] at hl
  simp only [List.cons_append, List.append_assoc, List.singleton_append, List.nil_append]
    at hbody hl
  simp [parsePyValue, hl, hq, hbody]

theorem parsePyMember_roundtrip (f : Nat) (hf : 2 ≤ f) (k v tail l : List Char)
    (hl : skipWS l = pyReprStr k ++ (':' :: ' ' :: (pyReprStr v ++ tail))) :
    parsePyMember f l = some ((k, Json.str v), tail) := by
  obtain ⟨f1, rfl⟩ : ∃ f1, f = f1 + 1 := ⟨f - 1, by omega⟩
  have hq := pyReprDelim_cases k
  have hbody := parsePyStrBody_reprTail k (':' :: ' ' :: (pyReprStr v ++ tail))
  rw [pyReprStr_eq k] at hl
  simp only [List.cons_append, List.append_assoc, List.singleton_append,
    List.nil_append] at hbody hl
  have hskip : skipWS (':' :: ' ' :: (pyReprStr v ++ tail)) =
      ':' :: ' ' :: (pyReprStr v ++ tail) :=
    skipWS_cons_notWS _ _ (by decide)
  have hval : parsePyValue f1 (' ' :: (pyReprStr v ++ tail)) =
      some (Json.str v, tail) := by
    have hsp : skipWS (' ' :: (pyReprStr v ++ tail)) = pyReprStr v ++ tail := by
      rw [skipWS_space]
      exact skipWS_pyReprStr v tail
    exact parsePyValue_str f1 (by omega) v tail _ hsp
  simp [parsePyMember, hl, hq, hbody, hskip, hval]

end Webhook
namespace Webhook

theorem dictInsert_append (acc : List (List Char × Json)) (k : List Char) (v : Json)
    (h : ∀ q ∈ acc, q.1 ≠ k) : dictInsert acc k v = acc ++ [(k, v)] := by
  have hany : acc.any (fun p => p.1 == k) = false := by
    rw [List.any_eq_false]
    intro p hp
    simp [h p hp]
  simp [dictInsert, hany]

theorem pyReprStr_length_pos (s : List Char) : 1 ≤ (pyReprStr s).length := by
  rw [pyReprStr_eq]
  simp

theorem membersTextAux_length (m : List (List Char × List Char)) (b : Bool) :
    m.length ≤ (membersTextAux m b).length := by
  induction m generalizing b with
  | nil => simp [membersTextAux]
  | cons kv tl ih =>
      obtain ⟨k, v⟩ := kv
      have h1 := pyReprStr_length_pos k
      have h2 := ih false
      simp only [membersTextAux, List.length_append, List.length_cons]
      omega

theorem skipWS_comma (l : List Char) : skipWS (',' :: l) = ',' :: l :=
  skipWS_cons_notWS _ _ (by decide)

theorem parsePyMembers_roundtrip (m : List (List Char × List Char)) :
    ∀ (fuel : Nat) (acc : List (List Char × Json)) (rest : List Char),
      m.length + 3 ≤ fuel →
      (∀ p ∈ m, ∀ q ∈ acc, q.1 ≠ p.1) →
      (m.map Prod.fst).Nodup →
      parsePyMembers fuel (membersTextAux m acc.isEmpty ++ rbChar :: rest) acc =
        some (Json.obj (acc ++ strJson m), rest) := by
  induction m with
  | nil =>
      intro fuel acc rest hfuel hfresh hnd
      obtain ⟨f, rfl⟩ : ∃ f, fuel = f + 1 := ⟨fuel - 1, by omega⟩
      simp [membersTextAux, parsePyMembers,
        skipWS_cons_notWS _ _ (by decide : jsonWS rbChar = false), strJson]
  | cons kv tl ih =>
      obtain ⟨k, v⟩ := kv
      intro fuel acc rest hfuel hfresh hnd
      obtain ⟨f, rfl⟩ : ∃ f, fuel = f + 1 := ⟨fuel - 1, by omega⟩
      have hknotin : ∀ q ∈ acc, q.1 ≠ k :=
        fun q hq => hfresh (k, v) (by simp) q hq
      simp only [List.map_cons, List.nodup_cons, List.mem_map] at hnd
      have hins : dictInsert acc k (Json.str v) = acc ++ [(k, Json.str v)] :=
        dictInsert_append acc k (Json.str v) hknotin
      have hfresh2 : ∀ p ∈ tl, ∀ q ∈ acc ++ [(k, Json.str v)], q.1 ≠ p.1 := by
        intro p hp q hq
        rcases List.mem_append.mp hq with hq1 | hq2
        · exact hfresh p (by simp [hp]) q hq1
        · have hqe : q = (k, Json.str v) := by simpa using hq2
          subst hqe
          intro he
          exact hnd.1 ⟨p, hp, he.symm⟩
      have hihfuel : tl.length + 3 ≤ f := by
        simp only [List.length_cons] at hfuel
        omega
      have hih := ih f (acc ++ [(k, Json.str v)]) rest hihfuel hfresh2 hnd.2
      have haccne : (acc ++ [(k, Json.str v)]).isEmpty = false := by
        cases acc <;> rfl
      rw [haccne] at hih
      simp only [List.nil_append, List.append_assoc] at hih
      set X := membersTextAux tl false ++ rbChar :: rest with hX
      have hmem : parsePyMember f
          (pyReprDelim k ::
            (k.flatMap (pyReprEscChar (pyReprDelim k)) ++
              pyReprDelim k :: (':' :: ' ' :: (pyReprStr v ++ X)))) =
          some ((k, Json.str v), X) := by
        apply parsePyMember_roundtrip f (by omega)
        rw [skipWS_cons_notWS _ _ (pyReprDelim_not_ws k), pyReprStr_eq k]
        simp [List.append_assoc]
      by_cases hacc : acc.isEmpty
      · have haccnil : acc = [] := by
          cases acc with
          | nil => rfl
          | cons a as => simp at hacc
        subst haccnil
        rw [hacc]
        simp only [membersTextAux, if_pos rfl, List.nil_append, List.append_assoc,
          List.cons_append]
        rw [pyReprStr_eq k]
        simp only [List.cons_append, List.append_assoc, List.singleton_append]
        have hsk : skipWS (pyReprDelim k ::
            (k.flatMap (pyReprEscChar (pyReprDelim k)) ++
              pyReprDelim k :: (':' :: ' ' :: (pyReprStr v ++ X)))) =
            pyReprDelim k ::
            (k.flatMap (pyReprEscChar (pyReprDelim k)) ++
              pyReprDelim k :: (':' :: ' ' :: (pyReprStr v ++ X))) :=
          skipWS_cons_notWS _ _ (pyReprDelim_not_ws k)
        simp only [List.nil_append] at hih
        simp [parsePyMembers, hsk, pyReprDelim_ne_rb k, hmem, hins,
          List.nil_append, strJson]
        rw [hih]
        simp [strJson]
      · have haccfalse : acc.isEmpty = false := by
          cases h : acc.isEmpty
          · rfl
          · exact absurd h hacc
        rw [haccfalse]
        simp only [membersTextAux, if_neg Bool.false_ne_true, List.cons_append,
          List.nil_append, List.append_assoc]
        have hmem2 : parsePyMember f
            (' ' :: (pyReprStr k ++ (':' :: ' ' :: (pyReprStr v ++ X)))) =
            some ((k, Json.str v), X) := by
          apply parsePyMember_roundtrip f (by omega)
          rw [skipWS_space]
          exact skipWS_pyReprStr k _
        rw [pyReprStr_eq k]
        simp only [List.cons_append, List.append_assoc, List.singleton_append]
        rw [pyReprStr_eq k] at hmem2
        simp only [List.cons_append, List.append_assoc, List.singleton_append,
          List.nil_append] at hmem2
        simp [parsePyMembers, skipWS_comma, haccfalse, hmem2, hins, strJson,
          (by decide : ¬(',' = rbChar))]
        rw [hih]
        simp [strJson]
      
end Webhook
namespace Webhook

theorem membersTextAux_false_cons (x : List Char × List Char)
    (xs : List (List Char × List Char)) :
    membersTextAux (x :: xs) false = ',' :: ' ' :: membersTextAux (x :: xs) true := by
  obtain ⟨a, b⟩ := x
  simp [membersTextAux]

theorem pyReprJsonMembers_strJson (m : List (List Char × List Char)) :
    pyReprJsonMembers (strJson m) = membersTextAux m true := by
  induction m with
  | nil => rfl
  | cons kv tl ih =>
      obtain ⟨k, v⟩ := kv
      cases tl with
      | nil =>
          simp [strJson, pyReprJsonMembers, membersTextAux, pyReprJson,
            (show sl ": " = [':', ' '] from rfl)]
      | cons x xs =>
          obtain ⟨a, b⟩ := x
          simp only [strJson, List.map_cons] at ih ⊢
          simp [pyReprJsonMembers, pyReprJson, membersTextAux, ih,
            (show sl ": " = [':', ' '] from rfl),
            (show sl ", " = [',', ' '] from rfl)]

theorem pyReprJson_obj_eq (m : List (List Char × List Char)) :
    pyReprJson (Json.obj (strJson m)) =
      lbChar :: (membersTextAux m true ++ [rbChar]) := by
  simp [pyReprJson, pyReprJsonMembers_strJson]

theorem pySafeEvalDict_roundtrip (m : List (List Char × List Char))
    (hnd : (m.map Prod.fst).Nodup) :
    pySafeEvalDict (pyReprJson (Json.obj (strJson m))) = some (strJson m) := by
  rw [pyReprJson_obj_eq]
  have hlen := membersTextAux_length m true
  unfold pySafeEvalDict
  obtain ⟨f, hf⟩ : ∃ f,
      2 * (lbChar :: (membersTextAux m true ++ [rbChar])).length + 4 = f + 1 :=
    ⟨2 * (lbChar :: (membersTextAux m true ++ [rbChar])).length + 3, by omega⟩
  have hLlen : (lbChar :: (membersTextAux m true ++ [rbChar])).length =
      (membersTextAux m true).length + 2 := by simp
  rw [hf]
  have hloop := parsePyMembers_roundtrip m f [] []
    (by omega) (by intro p hp q hq; cases hq) hnd
  simp only [List.isEmpty_nil, List.nil_append] at hloop
  have hv : parsePyValue (f + 1) (lbChar :: (membersTextAux m true ++ [rbChar])) =
      parsePyMembers f (membersTextAux m true ++ [rbChar]) [] := by
    have hsk : skipWS (lbChar :: (membersTextAux m true ++ [rbChar])) =
        lbChar :: (membersTextAux m true ++ [rbChar]) :=
      skipWS_cons_notWS _ _ (by decide)
    simp [parsePyValue, hsk, (by decide : ¬(lbChar = sqChar ∨ lbChar = '\"'))]
  rw [hv]
  rw [show (membersTextAux m true ++ [rbChar]) =
      (membersTextAux m true ++ rbChar :: []) from rfl, hloop]
  simp [skipWS]

/-- Claim C10: a falsy stored headers field gives the empty header
mapping, and a headers field whose JSON parse is an object with string
keys and values gives exactly that mapping back after the str()/
safe_eval round trip through _get_webhook_headers — the printed dict
evaluates back to the parsed one. -/
theorem c10_headers_attached (cfg : Config) :
    (cfg.headers = [] → attachedHeaders cfg = Except.ok []) ∧
    (∀ m : List (List Char × List Char),
      jsonLoads (pyStrip cfg.headers) = some (Json.obj (strJson m)) →
      (m.map Prod.fst).Nodup →
      cfg.headers ≠ [] →
      attachedHeaders cfg = Except.ok (strJson m)) := by
  constructor
  · intro h
    have h0 := pySafeEvalDict_roundtrip [] (by simp)
    simp only [strJson, List.map_nil] at h0
    simp [attachedHeaders, get_webhook_headers, h, h0]
  · intro m hj hnd hne
    have hie : cfg.headers.isEmpty = false := by
      cases hh : cfg.headers
      · exact absurd hh hne
      · rfl
    simp [attachedHeaders, get_webhook_headers, hie, hj,
      pySafeEvalDict_roundtrip m hnd]

/-- Witness for claim C10 at a concrete stored headers string with one
member and surrounding whitespace. -/
theorem c10_headers_attached_witness :
    attachedHeaders cfgHdr = Except.ok [(sl "a", Json.str (sl "b"))] := by
  have h := (c10_headers_attached cfgHdr).2 [(sl "a", sl "b")] (by rfl)
    (by decide) (by decide)
  simpa [strJson] using h

end Webhook

